import Mathlib

/-!
# Quay client (`pkg/quay/quay.go`): a shallow embedding

The four methods of `QuayClient` are embedded as pure functions that return the Go
result pair together with the trace of effects the call performed.  The pieces of the
Go standard library the methods call (`fmt.Sprintf`, `http.NewRequest`, `Header.Add`,
`http.Client.Do`, `io.ReadAll`, `json.Unmarshal`, `errors.New`) are modelled below; what
the library decides on its own (which URL strings parse, which byte strings are valid
JSON, what the server answers) is a parameter.
-/

namespace Quay

/-! ## Go values -/

/-- A Go `error` value: `none` is `nil`, `some m` is a non-nil error whose `Error()` is `m`. -/
abbrev GoError := Option String

/-- A Go slice value: `none` is the `nil` slice, `some xs` a non-nil slice with elements `xs`. -/
abbrev Slice (α : Type) := Option (List α)

/-- The function `errors.New`: always a non-nil error, carrying the text. -/
def errorsNew (text : String) : GoError := some text

/-! ## JSON values and `encoding/json` decoding -/

/-- A JSON value, as denoted by a syntactically valid JSON text. Object members are kept in
the order of the text (duplicates included); a number keeps its literal. -/
inductive JValue where
  | null : JValue
  | bool (b : Bool) : JValue
  | num (literal : String) : JValue
  | str (s : String) : JValue
  | arr (elems : List JValue) : JValue
  | obj (members : List (String × JValue)) : JValue

/-- How `encoding/json` decodes a JSON value into an addressable Go value of type `α`:
`zero` is the zero value of the type, `into old v` is the value left in a variable holding `old`
after decoding `v` into it, with the first type error recorded while doing so. -/
structure GoType (α : Type) where
  zero : α
  into : α → JValue → α × GoError

/-- Simple case folding of `encoding/json` for one rune of a key, restricted to the runes
whose fold class contains an ASCII letter: `a..z` go to upper case, U+017F to `S`, U+212A to `K`. -/
def foldRune (c : Char) : Char :=
  if 97 ≤ c.toNat ∧ c.toNat ≤ 122 then Char.ofNat (c.toNat - 32)
  else if c.toNat = 0x17F then 'S'
  else if c.toNat = 0x212A then 'K'
  else c

/-- Case-insensitive comparison of a JSON key with an (ASCII) field name. -/
def equalFold (name key : String) : Bool :=
  name.data.map foldRune == key.data.map foldRune

/-- Whether a JSON object key selects the struct field called `name` (a struct with this one
candidate): an exact match, or failing that a case-insensitive one. -/
def fieldMatches (name key : String) : Bool :=
  key == name || equalFold name key

/-- The first of two recorded errors (`saveError` keeps the first one). -/
def firstError (e₁ e₂ : GoError) : GoError :=
  match e₁ with
  | some e => some e
  | none => e₂

/-- Decoding into a Go `string`. -/
def goString : GoType String where
  zero := ""
  into old v :=
    match v with
    | .str s => (s, none)
    | .null => (old, none)
    | _ => (old, some "json: cannot unmarshal value into Go value of type string")

/-- Decoding the members of a JSON object into a struct, in the order of the text:
`member d key v` decodes one member into the struct value `d`. -/
def decodeMembers {α : Type} (member : α → String → JValue → α × GoError) :
    α → List (String × JValue) → α × GoError
  | d, [] => (d, none)
  | d, (k, v) :: rest =>
    let r₁ := member d k v
    let r₂ := decodeMembers member r₁.1 rest
    (r₂.1, firstError r₁.2 r₂.2)

/-- Decoding into a Go struct whose members are handled by `member`: an object is decoded
member by member, `null` leaves the struct as it is, anything else is a type error. -/
def goStruct {α : Type} (zero : α) (member : α → String → JValue → α × GoError) : GoType α where
  zero := zero
  into old v :=
    match v with
    | .obj members => decodeMembers member old members
    | .null => (old, none)
    | _ => (old, some "json: cannot unmarshal value into Go value of struct type")

/-- Decoding the elements of a JSON array: element `i` is decoded into the element the
slice already has at `i`, or into a zero value past its length. -/
def decodeElems {α : Type} (T : GoType α) : List α → List JValue → List α × GoError
  | _, [] => ([], none)
  | old, v :: rest =>
    let r₁ := T.into (old.headD T.zero) v
    let r₂ := decodeElems T old.tail rest
    (r₁.1 :: r₂.1, firstError r₁.2 r₂.2)

/-- Decoding into a Go slice: an array gives a non-nil slice of as many elements (the empty
array an empty non-nil slice), `null` sets the slice to `nil`, anything else is a type error.
The reuse of the elements of an existing slice is exact for a slice that has not been
shrunk before, which is all a single decoding of a fresh variable can produce with fewer
than three members for the same field. -/
def goSlice {α : Type} (T : GoType α) : GoType (Slice α) where
  zero := none
  into old v :=
    match v with
    | .arr elems =>
      let r := decodeElems T (old.getD []) elems
      (some r.1, r.2)
    | .null => (none, none)
    | _ => (old, some "json: cannot unmarshal value into Go value of slice type")

/-! ## The library's own decisions -/

/-- What the standard library decides by itself: `urlError s` is the error of `url.Parse s`
inside `http.NewRequest` (`none` when the string parses); `jsonParse data` is the syntax
check and reading of a JSON text by `json.Unmarshal` (an error for an invalid text). -/
structure Lib where
  urlError : String → Option String
  jsonParse : String → Except String JValue

/-- The function `json.Unmarshal(data, &v)` for a variable `v` of a type decoded by `T`:
an invalid text is an error and leaves the variable alone; a valid one is decoded into it. -/
def Unmarshal {α : Type} (lib : Lib) (T : GoType α) (data : String) (v : α) : α × GoError :=
  match lib.jsonParse data with
  | .error e => (v, some e)
  | .ok j => T.into v j

/-! ## HTTP -/

/-- An `http.Header`: keys with their values, in insertion order. -/
abbrev Header := List (String × List String)

/-- The method `Header.Values`. -/
def Header.Values (h : Header) (key : String) : List String :=
  match h.find? (fun kv => kv.1 == key) with
  | some kv => kv.2
  | none => []

/-- The method `Header.Add`: appends the value to the values of the key. The keys the client
uses, `Authorization` and `Content-Type`, are in canonical MIME form already. -/
def Header.Add (h : Header) (key value : String) : Header :=
  if h.any (fun kv => kv.1 == key) then
    h.map (fun kv => if kv.1 == key then (kv.1, kv.2 ++ [value]) else kv)
  else h ++ [(key, [value])]

/-- An `http.Request` as far as the client sets it: `URL` is the string the request was made
from, `Body` the request body (`none` for a `nil` body). -/
structure Request where
  Method : String
  URL : String
  Header : Header
  Body : Option String
deriving DecidableEq

/-- An `http.Response` as far as the client looks at it: `Body` is what `io.ReadAll(res.Body)`
gives, the bytes or a read error. -/
structure Response where
  StatusCode : Int
  Body : Except String String

/-- The function `http.NewRequest(method, url, nil)` for the methods `GET` and `DELETE`:
fails when the URL does not parse, else gives a request with an empty header and no body. -/
def NewRequest (lib : Lib) (method url : String) : Except String Request :=
  match lib.urlError url with
  | some e => .error e
  | none => .ok { Method := method, URL := url, Header := [], Body := none }

/-- An `http.Client`: what `Do` returns for a request, a transport error or a response. -/
structure HTTPClient where
  Do : Request → Except String Response

/-- The struct `QuayClient`. -/
structure QuayClient where
  url : String
  httpClient : HTTPClient
  AuthToken : String

/-- The function `NewQuayClient`. -/
def NewQuayClient (c : HTTPClient) (authToken url : String) : QuayClient :=
  { httpClient := c, AuthToken := authToken, url := url }

/-! ## Effects -/

/-- An effect of a call, in the order performed. -/
inductive Event where
  | roundTrip (req : Request) (answer : Except String Response) : Event
  | printf (text : String) : Event
  | readAll : Event
  | close : Event

/-- The result pair of a method with the effects of the call. -/
structure Outcome (α : Type) where
  value : α
  err : GoError
  trace : List Event

/-- The request handed to the transport during the call, if any. -/
def sentOf : List Event → Option Request
  | [] => none
  | .roundTrip req _ :: _ => some req
  | _ :: rest => sentOf rest

/-- The response the transport returned during the call, if any. -/
def responseOf : List Event → Option Response
  | [] => none
  | .roundTrip _ (.ok res) :: _ => some res
  | _ :: rest => responseOf rest

/-- Whether the response body was read during the call. -/
def bodyRead : List Event → Bool
  | [] => false
  | .readAll :: _ => true
  | _ :: rest => bodyRead rest

/-- Whether the response body was closed during the call. -/
def bodyClosed : List Event → Bool
  | [] => false
  | .close :: _ => true
  | _ :: rest => bodyClosed rest

/-- The request handed to the transport during the call, if any. -/
def Outcome.sent {α : Type} (o : Outcome α) : Option Request := sentOf o.trace

/-- The response the transport returned during the call, if any. -/
def Outcome.response {α : Type} (o : Outcome α) : Option Response := responseOf o.trace

/-- A `defer res.Body.Close()` in force on a return: the body is closed after whatever the
returning path did. -/
def deferClose {α : Type} (o : Outcome α) : Outcome α :=
  { o with trace := o.trace ++ [.close] }

/-- Renders a status code for the verb `%d`. -/
def fmtInt (n : Int) : String := toString n

/-! ## Types declared outside `quay.go` -/

/-- Modelled from the spec: the struct `QuayError` is declared outside `quay.go`; the spec
gives it as a JSON object with at least the string `error_message`, which the code reads as
the field `ErrorMessage`. -/
structure QuayError where
  ErrorMessage : String := ""
deriving DecidableEq

/-- Modelled from the spec: decoding of one object member into a `QuayError`. -/
def QuayError.member (d : QuayError) (key : String) (v : JValue) : QuayError × GoError :=
  if fieldMatches "error_message" key then
    let r := goString.into d.ErrorMessage v
    ({ d with ErrorMessage := r.1 }, r.2)
  else (d, none)

/-- Modelled from the spec: how `encoding/json` decodes into a `QuayError`. -/
def goQuayError : GoType QuayError := goStruct {} QuayError.member

/-! ## The methods of `QuayClient` -/

/-- The method `QuayClient.DeleteRepository`. -/
def DeleteRepository (lib : Lib) (c : QuayClient) (organization imageRepository : String) :
    Outcome Bool :=
  let url := c.url ++ "/repository/" ++ organization ++ "/" ++ imageRepository
  match NewRequest lib "DELETE" url with
  | .error err => { value := false, err := some err, trace := [] }
  | .ok req =>
    let req := { req with Header := req.Header.Add "Authorization" ("Bearer" ++ " " ++ c.AuthToken) }
    let req := { req with Header := req.Header.Add "Content-Type" "application/json" }
    match c.httpClient.Do req with
    | .error err => { value := false, err := some err, trace := [.roundTrip req (.error err)] }
    | .ok res =>
      let done := [Event.roundTrip req (.ok res)]
      deferClose <|
        if res.StatusCode = 204 then { value := true, err := none, trace := done }
        else if res.StatusCode = 404 then { value := false, err := none, trace := done }
        else
          match res.Body with
          | .error err => { value := false, err := some err, trace := done ++ [.readAll] }
          | .ok body =>
            let data := Unmarshal lib goQuayError body {}
            match data.2 with
            | some err => { value := false, err := some err, trace := done ++ [.readAll] }
            | none =>
              { value := false, err := errorsNew data.1.ErrorMessage, trace := done ++ [.readAll] }

/-- The method `QuayClient.DeleteRobotAccount`. -/
def DeleteRobotAccount (lib : Lib) (c : QuayClient) (organization robotName : String) :
    Outcome Bool :=
  let url := c.url ++ "/organization/" ++ organization ++ "/robots/" ++ robotName
  match NewRequest lib "DELETE" url with
  | .error err => { value := false, err := some err, trace := [] }
  | .ok req =>
    let req := { req with Header := req.Header.Add "Authorization" ("Bearer" ++ " " ++ c.AuthToken) }
    let req := { req with Header := req.Header.Add "Content-Type" "application/json" }
    match c.httpClient.Do req with
    | .error err => { value := false, err := some err, trace := [.roundTrip req (.error err)] }
    | .ok res =>
      let done := [Event.roundTrip req (.ok res)]
      deferClose <|
        if res.StatusCode = 204 then { value := true, err := none, trace := done }
        else if res.StatusCode = 404 then { value := false, err := none, trace := done }
        else
          match res.Body with
          | .error err => { value := false, err := some err, trace := done ++ [.readAll] }
          | .ok body =>
            let data := Unmarshal lib goQuayError body {}
            match data.2 with
            | some err => { value := false, err := some err, trace := done ++ [.readAll] }
            | none =>
              { value := false, err := errorsNew data.1.ErrorMessage, trace := done ++ [.readAll] }

/-- The local struct `Response` of `GetAllRepositories`, over the element type `Repository`
(declared outside `quay.go`). -/
structure GetAllRepositories.Response (Repository : Type) where
  Repositories : Slice Repository := none

/-- Decoding of one object member into the local `Response` of `GetAllRepositories`: the
field has no tag, so its key is the field name. -/
def GetAllRepositories.Response.member {Repository : Type} (T : GoType Repository)
    (d : GetAllRepositories.Response Repository) (key : String) (v : JValue) :
    GetAllRepositories.Response Repository × GoError :=
  if fieldMatches "Repositories" key then
    let r := (goSlice T).into d.Repositories v
    ({ d with Repositories := r.1 }, r.2)
  else (d, none)

/-- The method `QuayClient.GetAllRepositories`; `T` is the decoding of the element type. -/
def GetAllRepositories {Repository : Type} (T : GoType Repository) (lib : Lib) (c : QuayClient)
    (organization : String) : Outcome (Slice Repository) :=
  let url := c.url ++ "/repository?last_modified=true&namespace=" ++ organization
  match NewRequest lib "GET" url with
  | .error err => { value := none, err := some err, trace := [] }
  | .ok req =>
    let req := { req with Header := req.Header.Add "Authorization" ("Bearer" ++ " " ++ c.AuthToken) }
    let req := { req with Header := req.Header.Add "Content-Type" "application/json" }
    match c.httpClient.Do req with
    | .error err => { value := none, err := some err, trace := [.roundTrip req (.error err)] }
    | .ok res =>
      -- the variable `err` holds the nil error of `Do` from here on
      let err : GoError := none
      let done := [Event.roundTrip req (.ok res)]
      if res.StatusCode ≠ 200 then
        { value := none, err := err,
          trace := done ++
            [.printf ("error getting repositories, got status code " ++ fmtInt res.StatusCode)] }
      else
        deferClose <|
          match res.Body with
          | .error err => { value := none, err := some err, trace := done ++ [.readAll] }
          | .ok body =>
            let response :=
              Unmarshal lib (goStruct {} (GetAllRepositories.Response.member T)) body {}
            { value := response.1.Repositories, err := none, trace := done ++ [.readAll] }

/-- The local struct `Response` of `GetAllRobotAccounts`, over the element type `RobotAccount`
(declared outside `quay.go`). -/
structure GetAllRobotAccounts.Response (RobotAccount : Type) where
  Robots : Slice RobotAccount := none

/-- Decoding of one object member into the local `Response` of `GetAllRobotAccounts`: the
field has no tag, so its key is the field name. -/
def GetAllRobotAccounts.Response.member {RobotAccount : Type} (T : GoType RobotAccount)
    (d : GetAllRobotAccounts.Response RobotAccount) (key : String) (v : JValue) :
    GetAllRobotAccounts.Response RobotAccount × GoError :=
  if fieldMatches "Robots" key then
    let r := (goSlice T).into d.Robots v
    ({ d with Robots := r.1 }, r.2)
  else (d, none)

/-- The method `QuayClient.GetAllRobotAccounts`; `T` is the decoding of the element type. -/
def GetAllRobotAccounts {RobotAccount : Type} (T : GoType RobotAccount) (lib : Lib)
    (c : QuayClient) (organization : String) : Outcome (Slice RobotAccount) :=
  let url := c.url ++ "/organization/" ++ organization ++ "/robots"
  match NewRequest lib "GET" url with
  | .error err => { value := none, err := some err, trace := [] }
  | .ok req =>
    let req := { req with Header := req.Header.Add "Authorization" ("Bearer " ++ c.AuthToken) }
    let req := { req with Header := req.Header.Add "Content-Type" "application/json" }
    match c.httpClient.Do req with
    | .error err => { value := none, err := some err, trace := [.roundTrip req (.error err)] }
    | .ok res =>
      -- the variable `err` holds the nil error of `Do` from here on
      let err : GoError := none
      let done := [Event.roundTrip req (.ok res)]
      if res.StatusCode ≠ 200 then
        { value := none, err := err,
          trace := done ++
            [.printf ("error getting robot accounts, got status code " ++ fmtInt res.StatusCode)] }
      else
        deferClose <|
          match res.Body with
          | .error err => { value := none, err := some err, trace := done ++ [.readAll] }
          | .ok body =>
            let response :=
              Unmarshal lib (goStruct {} (GetAllRobotAccounts.Response.member T)) body {}
            { value := response.1.Robots, err := none, trace := done ++ [.readAll] }

/-! ## The endpoint table of the spec -/

/-- The request of the spec's endpoint table: the given method and URL string, the two headers
`Authorization: Bearer <token>` and `Content-Type: application/json`, and no body. -/
def endpointRequest (method url token : String) : Request :=
  { Method := method, URL := url,
    Header := [("Authorization", ["Bearer " ++ token]), ("Content-Type", ["application/json"])],
    Body := none }

/-- The part the two delete methods have in common, from the `defer` on: what they do with
the response `res` that `Do` returned for `req`. -/
def deleteAnswered (lib : Lib) (req : Request) (res : Response) : Outcome Bool :=
  deferClose <|
    if res.StatusCode = 204 then ⟨true, none, [.roundTrip req (.ok res)]⟩
    else if res.StatusCode = 404 then ⟨false, none, [.roundTrip req (.ok res)]⟩
    else
      match res.Body with
      | .error err => ⟨false, some err, [.roundTrip req (.ok res), .readAll]⟩
      | .ok body =>
        match (Unmarshal lib goQuayError body {}).2 with
        | some err => ⟨false, some err, [.roundTrip req (.ok res), .readAll]⟩
        | none =>
          ⟨false, some (Unmarshal lib goQuayError body {}).1.ErrorMessage,
            [.roundTrip req (.ok res), .readAll]⟩

/-- The URL string of each endpoint of the spec's table. -/
def repositoryURL (base organization name : String) : String :=
  base ++ "/repository/" ++ organization ++ "/" ++ name

/-- The URL string of the robot account endpoint. -/
def robotURL (base organization name : String) : String :=
  base ++ "/organization/" ++ organization ++ "/robots/" ++ name

/-- The URL string of the repository listing endpoint. -/
def repositoriesURL (base organization : String) : String :=
  base ++ "/repository?last_modified=true&namespace=" ++ organization

/-- The URL string of the robot account listing endpoint. -/
def robotsURL (base organization : String) : String :=
  base ++ "/organization/" ++ organization ++ "/robots"

/-! ## Reference instances

The theorems below hold for every `Lib`, every transport and every element type. The
instances here are concrete ones to evaluate the methods on: a reader of JSON texts, a URL
check, a transport with a fixed answer, and the two element types. -/

/-- Skips JSON white space. -/
def skipWs : List Char → List Char
  | [] => []
  | c :: cs =>
    if c.toNat = 32 ∨ c.toNat = 9 ∨ c.toNat = 10 ∨ c.toNat = 13 then skipWs cs else c :: cs

/-- The value of a hexadecimal digit. -/
def hexDigit (c : Char) : Option Nat :=
  if 48 ≤ c.toNat ∧ c.toNat ≤ 57 then some (c.toNat - 48)
  else if 97 ≤ c.toNat ∧ c.toNat ≤ 102 then some (c.toNat - 87)
  else if 65 ≤ c.toNat ∧ c.toNat ≤ 70 then some (c.toNat - 55)
  else none

/-- The character of a one-letter escape. -/
def unescape (c : Char) : Option Char :=
  if c.toNat = 34 ∨ c.toNat = 92 ∨ c.toNat = 47 then some c
  else if c.toNat = 98 then some (Char.ofNat 8)
  else if c.toNat = 102 then some (Char.ofNat 12)
  else if c.toNat = 110 then some (Char.ofNat 10)
  else if c.toNat = 114 then some (Char.ofNat 13)
  else if c.toNat = 116 then some (Char.ofNat 9)
  else none

/-- Reads a string literal after its opening quote; `acc` holds the characters read so far,
last first. An escape `\u` gives the character of its code unit, a surrogate the
replacement character. -/
def readString : List Char → List Char → Option (String × List Char)
  | [], _ => none
  | c :: cs, acc =>
    if c.toNat = 34 then some (String.mk acc.reverse, cs)
    else if c.toNat < 32 then none
    else if c.toNat = 92 then
      match cs with
      | [] => none
      | e :: cs1 =>
        if e.toNat = 117 then
          match cs1 with
          | h1 :: h2 :: h3 :: h4 :: cs2 =>
            match hexDigit h1, hexDigit h2, hexDigit h3, hexDigit h4 with
            | some a, some b, some c1, some d =>
              let code := ((a * 16 + b) * 16 + c1) * 16 + d
              let ch := if 0xD800 ≤ code ∧ code ≤ 0xDFFF then Char.ofNat 0xFFFD else Char.ofNat code
              readString cs2 (ch :: acc)
            | _, _, _, _ => none
          | _ => none
        else
          match unescape e with
          | some u => readString cs1 (u :: acc)
          | none => none
    else readString cs (c :: acc)

/-- Splits off the leading decimal digits. -/
def spanDigits : List Char → List Char × List Char
  | [] => ([], [])
  | c :: cs =>
    if 48 ≤ c.toNat ∧ c.toNat ≤ 57 then ((spanDigits cs).1.cons c, (spanDigits cs).2)
    else ([], c :: cs)

/-- Reads a number literal. -/
def readNumber (cs : List Char) : Option (String × List Char) :=
  let sign := cs.takeWhile (fun c => c.toNat = 45) |>.take 1
  let r0 := cs.drop sign.length
  let int := spanDigits r0
  if int.1 = [] ∨ (int.1.length > 1 ∧ int.1.head? = some '0') then none
  else
    let frac : Option (List Char × List Char) :=
      match int.2 with
      | c :: r1 =>
        if c.toNat = 46 then
          let f := spanDigits r1
          if f.1 = [] then none else some (c :: f.1, f.2)
        else some ([], int.2)
      | [] => some ([], [])
    match frac with
    | none => none
    | some (f, r2) =>
      let exp : Option (List Char × List Char) :=
        match r2 with
        | c :: r3 =>
          if c.toNat = 101 ∨ c.toNat = 69 then
            let s := r3.takeWhile (fun c => c.toNat = 43 ∨ c.toNat = 45) |>.take 1
            let e := spanDigits (r3.drop s.length)
            if e.1 = [] then none else some (c :: s ++ e.1, e.2)
          else some ([], r2)
        | [] => some ([], [])
      match exp with
      | none => none
      | some (e, r4) => some (String.mk (sign ++ int.1 ++ f ++ e), r4)

/-- Strips a literal word off the input. -/
def stripWord (w : List Char) (cs : List Char) : Option (List Char) :=
  if w.isPrefixOf cs then some (cs.drop w.length) else none

mutual
/-- Reads one JSON value, with `fuel` bounding the nesting and length. -/
def readValue : Nat → List Char → Option (JValue × List Char)
  | 0, _ => none
  | fuel + 1, cs =>
    match skipWs cs with
    | [] => none
    | c :: rest =>
      if c.toNat = 123 then
        match skipWs rest with
        | [] => none
        | d :: rest1 =>
          if d.toNat = 125 then some (.obj [], rest1) else readMembers fuel (d :: rest1) []
      else if c.toNat = 91 then
        match skipWs rest with
        | [] => none
        | d :: rest1 =>
          if d.toNat = 93 then some (.arr [], rest1) else readElems fuel (d :: rest1) []
      else if c.toNat = 34 then
        match readString rest [] with
        | some (s, rest1) => some (.str s, rest1)
        | none => none
      else if c.toNat = 116 then (stripWord "true".data (c :: rest)).map (fun r => (.bool true, r))
      else if c.toNat = 102 then (stripWord "false".data (c :: rest)).map (fun r => (.bool false, r))
      else if c.toNat = 110 then (stripWord "null".data (c :: rest)).map (fun r => (.null, r))
      else
        match readNumber (c :: rest) with
        | some (s, rest1) => some (.num s, rest1)
        | none => none
/-- Reads the elements of an array up to its closing bracket. -/
def readElems : Nat → List Char → List JValue → Option (JValue × List Char)
  | 0, _, _ => none
  | fuel + 1, cs, acc =>
    match readValue fuel cs with
    | none => none
    | some (v, rest) =>
      match skipWs rest with
      | [] => none
      | d :: rest1 =>
        if d.toNat = 44 then readElems fuel rest1 (v :: acc)
        else if d.toNat = 93 then some (.arr (v :: acc).reverse, rest1)
        else none
/-- Reads the members of an object up to its closing brace. -/
def readMembers : Nat → List Char → List (String × JValue) → Option (JValue × List Char)
  | 0, _, _ => none
  | fuel + 1, cs, acc =>
    match skipWs cs with
    | [] => none
    | q :: rest =>
      if q.toNat = 34 then
        match readString rest [] with
        | none => none
        | some (k, rest1) =>
          match skipWs rest1 with
          | [] => none
          | colon :: rest2 =>
            if colon.toNat = 58 then
              match readValue fuel rest2 with
              | none => none
              | some (v, rest3) =>
                match skipWs rest3 with
                | [] => none
                | d :: rest4 =>
                  if d.toNat = 44 then readMembers fuel rest4 ((k, v) :: acc)
                  else if d.toNat = 125 then some (.obj ((k, v) :: acc).reverse, rest4)
                  else none
            else none
      else none
end

/-- A reader of JSON texts: the value a text denotes, or an error for an invalid text. -/
def readJSON (data : String) : Except String JValue :=
  match readValue (2 * data.data.length + 4) data.data with
  | none => .error "invalid JSON text"
  | some (v, rest) =>
    match skipWs rest with
    | [] => .ok v
    | _ => .error "invalid character after top-level value"

/-- A library instance: a URL string parses unless it holds an ASCII control character; JSON
texts are read by `readJSON`. -/
def refLib : Lib where
  urlError s :=
    if s.data.any (fun c => c.toNat < 32 ∨ c.toNat = 127) then
      some "net/url: invalid control character in URL"
    else none
  jsonParse := readJSON

/-- A transport that answers every request with the same status and body. -/
def fixedClient (status : Int) (body : Except String String) : HTTPClient where
  Do _ := .ok { StatusCode := status, Body := body }

/-- Modelled from the spec: the struct `Repository` is declared outside `quay.go`; of its
fields the spec fixes the repository name, under the JSON key `name`. -/
structure Repository where
  Name : String := ""
deriving DecidableEq

/-- Modelled from the spec: decoding of one object member into a `Repository`. -/
def Repository.member (d : Repository) (key : String) (v : JValue) : Repository × GoError :=
  if fieldMatches "name" key then
    let r := goString.into d.Name v
    ({ d with Name := r.1 }, r.2)
  else (d, none)

/-- Modelled from the spec: how `encoding/json` decodes into a `Repository`. -/
def goRepository : GoType Repository := goStruct {} Repository.member

/-- Modelled from the spec: the struct `RobotAccount` is declared outside `quay.go`; of its
fields the spec names the robot name and its token, taken under the JSON keys `name` and
`token`. -/
structure RobotAccount where
  Name : String := ""
  Token : String := ""
deriving DecidableEq

/-- Modelled from the spec: decoding of one object member into a `RobotAccount`. -/
def RobotAccount.member (d : RobotAccount) (key : String) (v : JValue) :
    RobotAccount × GoError :=
  if fieldMatches "name" key then
    let r := goString.into d.Name v
    ({ d with Name := r.1 }, r.2)
  else if fieldMatches "token" key then
    let r := goString.into d.Token v
    ({ d with Token := r.1 }, r.2)
  else (d, none)

/-- Modelled from the spec: how `encoding/json` decodes into a `RobotAccount`. -/
def goRobotAccount : GoType RobotAccount := goStruct {} RobotAccount.member

/-- A client over a transport with a fixed answer, with the token `tok` and a base URL. -/
def refClient (status : Int) (body : Except String String) : QuayClient :=
  NewQuayClient (fixedClient status body) "tok" "https://quay.example/api/v1"

/-! ## Shared lemmas -/

theorem headers_add (v : String) :
    (Header.Add [] "Authorization" v).Add "Content-Type" "application/json" =
      [("Authorization", [v]), ("Content-Type", ["application/json"])] := by
  simp [Header.Add]

theorem bearer_append (t : String) : "Bearer" ++ " " ++ t = "Bearer " ++ t := by
  rw [String.append_assoc]; rfl

@[simp] theorem responseOf_roundTrip_ok (req : Request) (res : Response) (t : List Event) :
    responseOf (.roundTrip req (.ok res) :: t) = some res := rfl

@[simp] theorem responseOf_roundTrip_error (req : Request) (e : String) (t : List Event) :
    responseOf (.roundTrip req (.error e) :: t) = responseOf t := rfl

@[simp] theorem sentOf_roundTrip (req : Request) (a : Except String Response) (t : List Event) :
    sentOf (.roundTrip req a :: t) = some req := rfl

/-- The response recorded by the common part of the delete methods. -/
theorem deleteAnswered_response (lib : Lib) (req : Request) (res : Response) :
    (deleteAnswered lib req res).response = some res := by
  unfold deleteAnswered Outcome.response deferClose
  split_ifs
  · rfl
  · rfl
  · split
    · rfl
    · split <;> rfl

/-- The method `DeleteRepository` when its URL does not parse: no request is sent. -/
theorem DeleteRepository_unbuilt {lib : Lib} {c : QuayClient} {organization name : String} {e : String}
    (hu : lib.urlError (repositoryURL c.url organization name) = some e) :
    DeleteRepository lib c organization name = ⟨false, some e, []⟩ := by
  unfold repositoryURL at hu
  unfold DeleteRepository
  simp only [NewRequest, hu]

/-- The method `DeleteRepository` when the transport fails. -/
theorem DeleteRepository_failed {lib : Lib} {c : QuayClient} {organization name : String} {e : String}
    (hu : lib.urlError (repositoryURL c.url organization name) = none)
    (hdo : c.httpClient.Do (endpointRequest "DELETE" (repositoryURL c.url organization name) c.AuthToken) = .error e) :
    DeleteRepository lib c organization name =
      ⟨false, some e, [.roundTrip (endpointRequest "DELETE" (repositoryURL c.url organization name) c.AuthToken) (.error e)]⟩ := by
  unfold endpointRequest repositoryURL at hdo
  unfold repositoryURL at hu
  unfold DeleteRepository
  simp only [NewRequest, hu, headers_add, bearer_append, hdo, endpointRequest, repositoryURL]

/-- The method `DeleteRepository` when the transport returns a response. -/
theorem DeleteRepository_answered {lib : Lib} {c : QuayClient} {organization name : String}
    {res : Response}
    (hu : lib.urlError (repositoryURL c.url organization name) = none)
    (hdo : c.httpClient.Do (endpointRequest "DELETE" (repositoryURL c.url organization name) c.AuthToken) = .ok res) :
    DeleteRepository lib c organization name = deleteAnswered lib (endpointRequest "DELETE" (repositoryURL c.url organization name) c.AuthToken) res := by
  unfold endpointRequest repositoryURL at hdo
  unfold repositoryURL at hu
  unfold DeleteRepository deleteAnswered
  simp only [NewRequest, hu, headers_add, bearer_append, hdo, endpointRequest, errorsNew,
    List.singleton_append, repositoryURL]

/-- A response seen by `DeleteRepository` is the transport's answer to the endpoint request. -/
theorem DeleteRepository_response {lib : Lib} {c : QuayClient} {organization name : String}
    {res : Response} (h : (DeleteRepository lib c organization name).response = some res) :
    lib.urlError (repositoryURL c.url organization name) = none ∧
      c.httpClient.Do (endpointRequest "DELETE" (repositoryURL c.url organization name) c.AuthToken) = .ok res := by
  cases hu : lib.urlError (repositoryURL c.url organization name) with
  | some e => rw [DeleteRepository_unbuilt hu] at h; simp [Outcome.response, responseOf] at h
  | none =>
    refine ⟨rfl, ?_⟩
    cases hdo : c.httpClient.Do (endpointRequest "DELETE" (repositoryURL c.url organization name) c.AuthToken) with
    | error e => rw [DeleteRepository_failed hu hdo] at h; simp [Outcome.response, responseOf] at h
    | ok res1 =>
      rw [DeleteRepository_answered hu hdo, deleteAnswered_response] at h
      rw [Option.some.inj h]

/-- The method `DeleteRobotAccount` when its URL does not parse: no request is sent. -/
theorem DeleteRobotAccount_unbuilt {lib : Lib} {c : QuayClient} {organization name : String} {e : String}
    (hu : lib.urlError (robotURL c.url organization name) = some e) :
    DeleteRobotAccount lib c organization name = ⟨false, some e, []⟩ := by
  unfold robotURL at hu
  unfold DeleteRobotAccount
  simp only [NewRequest, hu]

/-- The method `DeleteRobotAccount` when the transport fails. -/
theorem DeleteRobotAccount_failed {lib : Lib} {c : QuayClient} {organization name : String} {e : String}
    (hu : lib.urlError (robotURL c.url organization name) = none)
    (hdo : c.httpClient.Do (endpointRequest "DELETE" (robotURL c.url organization name) c.AuthToken) = .error e) :
    DeleteRobotAccount lib c organization name =
      ⟨false, some e, [.roundTrip (endpointRequest "DELETE" (robotURL c.url organization name) c.AuthToken) (.error e)]⟩ := by
  unfold endpointRequest robotURL at hdo
  unfold robotURL at hu
  unfold DeleteRobotAccount
  simp only [NewRequest, hu, headers_add, bearer_append, hdo, endpointRequest, robotURL]

/-- The method `DeleteRobotAccount` when the transport returns a response. -/
theorem DeleteRobotAccount_answered {lib : Lib} {c : QuayClient} {organization name : String}
    {res : Response}
    (hu : lib.urlError (robotURL c.url organization name) = none)
    (hdo : c.httpClient.Do (endpointRequest "DELETE" (robotURL c.url organization name) c.AuthToken) = .ok res) :
    DeleteRobotAccount lib c organization name = deleteAnswered lib (endpointRequest "DELETE" (robotURL c.url organization name) c.AuthToken) res := by
  unfold endpointRequest robotURL at hdo
  unfold robotURL at hu
  unfold DeleteRobotAccount deleteAnswered
  simp only [NewRequest, hu, headers_add, bearer_append, hdo, endpointRequest, errorsNew,
    List.singleton_append, robotURL]

/-- A response seen by `DeleteRobotAccount` is the transport's answer to the endpoint request. -/
theorem DeleteRobotAccount_response {lib : Lib} {c : QuayClient} {organization name : String}
    {res : Response} (h : (DeleteRobotAccount lib c organization name).response = some res) :
    lib.urlError (robotURL c.url organization name) = none ∧
      c.httpClient.Do (endpointRequest "DELETE" (robotURL c.url organization name) c.AuthToken) = .ok res := by
  cases hu : lib.urlError (robotURL c.url organization name) with
  | some e => rw [DeleteRobotAccount_unbuilt hu] at h; simp [Outcome.response, responseOf] at h
  | none =>
    refine ⟨rfl, ?_⟩
    cases hdo : c.httpClient.Do (endpointRequest "DELETE" (robotURL c.url organization name) c.AuthToken) with
    | error e => rw [DeleteRobotAccount_failed hu hdo] at h; simp [Outcome.response, responseOf] at h
    | ok res1 =>
      rw [DeleteRobotAccount_answered hu hdo, deleteAnswered_response] at h
      rw [Option.some.inj h]

/-- The method `GetAllRepositories` when its URL does not parse: no request is sent. -/
theorem GetAllRepositories_unbuilt {α : Type} {T : GoType α} {lib : Lib} {c : QuayClient}
    {organization : String} {e : String}
    (hu : lib.urlError (repositoriesURL c.url organization) = some e) :
    GetAllRepositories T lib c organization = ⟨none, some e, []⟩ := by
  unfold repositoriesURL at hu
  unfold GetAllRepositories
  simp only [NewRequest, hu]

/-- The method `GetAllRepositories` when the transport fails. -/
theorem GetAllRepositories_failed {α : Type} {T : GoType α} {lib : Lib} {c : QuayClient}
    {organization : String} {e : String}
    (hu : lib.urlError (repositoriesURL c.url organization) = none)
    (hdo : c.httpClient.Do (endpointRequest "GET" (repositoriesURL c.url organization) c.AuthToken) = .error e) :
    GetAllRepositories T lib c organization =
      ⟨none, some e, [.roundTrip (endpointRequest "GET" (repositoriesURL c.url organization) c.AuthToken) (.error e)]⟩ := by
  unfold endpointRequest repositoriesURL at hdo
  unfold repositoriesURL at hu
  unfold GetAllRepositories
  simp only [NewRequest, hu, headers_add, bearer_append, hdo, endpointRequest, repositoriesURL]

/-- The method `GetAllRepositories` when the transport returns a response. -/
theorem GetAllRepositories_answered {α : Type} {T : GoType α} {lib : Lib} {c : QuayClient}
    {organization : String} {res : Response}
    (hu : lib.urlError (repositoriesURL c.url organization) = none)
    (hdo : c.httpClient.Do (endpointRequest "GET" (repositoriesURL c.url organization) c.AuthToken) = .ok res) :
    GetAllRepositories T lib c organization =
      if res.StatusCode ≠ 200 then
        ⟨none, none, [.roundTrip (endpointRequest "GET" (repositoriesURL c.url organization) c.AuthToken) (.ok res),
          .printf ("error getting repositories, got status code " ++ fmtInt res.StatusCode)]⟩
      else
        deferClose
          (match res.Body with
          | .error err => ⟨none, some err, [.roundTrip (endpointRequest "GET" (repositoriesURL c.url organization) c.AuthToken) (.ok res), .readAll]⟩
          | .ok body =>
            ⟨(Unmarshal lib (goStruct {} (GetAllRepositories.Response.member T)) body {}).1.Repositories, none,
              [.roundTrip (endpointRequest "GET" (repositoriesURL c.url organization) c.AuthToken) (.ok res), .readAll]⟩) := by
  unfold endpointRequest repositoriesURL at hdo
  unfold repositoriesURL at hu
  unfold GetAllRepositories
  simp only [NewRequest, hu, headers_add, bearer_append, hdo, endpointRequest,
    List.singleton_append, repositoriesURL]

/-- A response seen by `GetAllRepositories` is the transport's answer to the endpoint request. -/
theorem GetAllRepositories_response {α : Type} {T : GoType α} {lib : Lib} {c : QuayClient}
    {organization : String} {res : Response}
    (h : (GetAllRepositories T lib c organization).response = some res) :
    lib.urlError (repositoriesURL c.url organization) = none ∧
      c.httpClient.Do (endpointRequest "GET" (repositoriesURL c.url organization) c.AuthToken) = .ok res := by
  cases hu : lib.urlError (repositoriesURL c.url organization) with
  | some e => rw [GetAllRepositories_unbuilt hu] at h; simp [Outcome.response, responseOf] at h
  | none =>
    refine ⟨rfl, ?_⟩
    cases hdo : c.httpClient.Do (endpointRequest "GET" (repositoriesURL c.url organization) c.AuthToken) with
    | error e => rw [GetAllRepositories_failed hu hdo] at h; simp [Outcome.response, responseOf] at h
    | ok res1 =>
      rw [GetAllRepositories_answered hu hdo] at h
      have h1 : res1 = res := by
        split_ifs at h
        · exact Option.some.inj h
        · unfold Outcome.response deferClose at h
          split at h <;> exact Option.some.inj h
      rw [h1]

/-- The method `GetAllRobotAccounts` when its URL does not parse: no request is sent. -/
theorem GetAllRobotAccounts_unbuilt {α : Type} {T : GoType α} {lib : Lib} {c : QuayClient}
    {organization : String} {e : String}
    (hu : lib.urlError (robotsURL c.url organization) = some e) :
    GetAllRobotAccounts T lib c organization = ⟨none, some e, []⟩ := by
  unfold robotsURL at hu
  unfold GetAllRobotAccounts
  simp only [NewRequest, hu]

/-- The method `GetAllRobotAccounts` when the transport fails. -/
theorem GetAllRobotAccounts_failed {α : Type} {T : GoType α} {lib : Lib} {c : QuayClient}
    {organization : String} {e : String}
    (hu : lib.urlError (robotsURL c.url organization) = none)
    (hdo : c.httpClient.Do (endpointRequest "GET" (robotsURL c.url organization) c.AuthToken) = .error e) :
    GetAllRobotAccounts T lib c organization =
      ⟨none, some e, [.roundTrip (endpointRequest "GET" (robotsURL c.url organization) c.AuthToken) (.error e)]⟩ := by
  unfold endpointRequest robotsURL at hdo
  unfold robotsURL at hu
  unfold GetAllRobotAccounts
  simp only [NewRequest, hu, headers_add, hdo, endpointRequest, robotsURL]

/-- The method `GetAllRobotAccounts` when the transport returns a response. -/
theorem GetAllRobotAccounts_answered {α : Type} {T : GoType α} {lib : Lib} {c : QuayClient}
    {organization : String} {res : Response}
    (hu : lib.urlError (robotsURL c.url organization) = none)
    (hdo : c.httpClient.Do (endpointRequest "GET" (robotsURL c.url organization) c.AuthToken) = .ok res) :
    GetAllRobotAccounts T lib c organization =
      if res.StatusCode ≠ 200 then
        ⟨none, none, [.roundTrip (endpointRequest "GET" (robotsURL c.url organization) c.AuthToken) (.ok res),
          .printf ("error getting robot accounts, got status code " ++ fmtInt res.StatusCode)]⟩
      else
        deferClose
          (match res.Body with
          | .error err => ⟨none, some err, [.roundTrip (endpointRequest "GET" (robotsURL c.url organization) c.AuthToken) (.ok res), .readAll]⟩
          | .ok body =>
            ⟨(Unmarshal lib (goStruct {} (GetAllRobotAccounts.Response.member T)) body {}).1.Robots, none,
              [.roundTrip (endpointRequest "GET" (robotsURL c.url organization) c.AuthToken) (.ok res), .readAll]⟩) := by
  unfold endpointRequest robotsURL at hdo
  unfold robotsURL at hu
  unfold GetAllRobotAccounts
  simp only [NewRequest, hu, headers_add, hdo, endpointRequest,
    List.singleton_append, robotsURL]

/-- A response seen by `GetAllRobotAccounts` is the transport's answer to the endpoint request. -/
theorem GetAllRobotAccounts_response {α : Type} {T : GoType α} {lib : Lib} {c : QuayClient}
    {organization : String} {res : Response}
    (h : (GetAllRobotAccounts T lib c organization).response = some res) :
    lib.urlError (robotsURL c.url organization) = none ∧
      c.httpClient.Do (endpointRequest "GET" (robotsURL c.url organization) c.AuthToken) = .ok res := by
  cases hu : lib.urlError (robotsURL c.url organization) with
  | some e => rw [GetAllRobotAccounts_unbuilt hu] at h; simp [Outcome.response, responseOf] at h
  | none =>
    refine ⟨rfl, ?_⟩
    cases hdo : c.httpClient.Do (endpointRequest "GET" (robotsURL c.url organization) c.AuthToken) with
    | error e => rw [GetAllRobotAccounts_failed hu hdo] at h; simp [Outcome.response, responseOf] at h
    | ok res1 =>
      rw [GetAllRobotAccounts_answered hu hdo] at h
      have h1 : res1 = res := by
        split_ifs at h
        · exact Option.some.inj h
        · unfold Outcome.response deferClose at h
          split at h <;> exact Option.some.inj h
      rw [h1]

/-- What the common part of the delete methods returns for each status. -/
theorem deleteAnswered_status (lib : Lib) (req : Request) (res : Response) :
    (res.StatusCode = 204 →
      (deleteAnswered lib req res).value = true ∧ (deleteAnswered lib req res).err = none ∧
        bodyRead (deleteAnswered lib req res).trace = false) ∧
    (res.StatusCode = 404 →
      (deleteAnswered lib req res).value = false ∧ (deleteAnswered lib req res).err = none) ∧
    (res.StatusCode ≠ 204 → res.StatusCode ≠ 404 →
      (deleteAnswered lib req res).value = false ∧ (deleteAnswered lib req res).err ≠ none) := by
  refine ⟨fun h => ?_, fun h => ?_, fun h1 h2 => ?_⟩
  · simp [deleteAnswered, deferClose, h, bodyRead]
  · simp [deleteAnswered, deferClose, h]
  · unfold deleteAnswered deferClose
    simp only [h1, h2, if_false]
    split
    · simp
    · split <;> simp

/-! ## Status handling of the delete methods -/

/-- C1: when the transport returns a response with status 404, `DeleteRepository` and
`DeleteRobotAccount` both return `(false, nil)`, for every organization, name and body. -/
theorem delete_status_404 (lib : Lib) (c : QuayClient) (organization name : String)
    (res : Response) (hstatus : res.StatusCode = 404) :
    ((DeleteRepository lib c organization name).response = some res →
      (DeleteRepository lib c organization name).value = false ∧
        (DeleteRepository lib c organization name).err = none) ∧
    ((DeleteRobotAccount lib c organization name).response = some res →
      (DeleteRobotAccount lib c organization name).value = false ∧
        (DeleteRobotAccount lib c organization name).err = none) := by
  constructor
  · intro h
    obtain ⟨hu, hdo⟩ := DeleteRepository_response h
    rw [DeleteRepository_answered hu hdo]
    exact (deleteAnswered_status lib _ res).2.1 hstatus
  · intro h
    obtain ⟨hu, hdo⟩ := DeleteRobotAccount_response h
    rw [DeleteRobotAccount_answered hu hdo]
    exact (deleteAnswered_status lib _ res).2.1 hstatus

/-- C1 at a concrete input: a transport answering 404 with some body. -/
theorem delete_status_404_witness :
    ((DeleteRepository refLib (NewQuayClient (fixedClient 404 (.ok "gone")) "tok" "https://q/api/v1")
        "org" "repo").response = some ⟨404, .ok "gone"⟩ ∧
      (DeleteRepository refLib (NewQuayClient (fixedClient 404 (.ok "gone")) "tok" "https://q/api/v1")
        "org" "repo").value = false ∧
      (DeleteRepository refLib (NewQuayClient (fixedClient 404 (.ok "gone")) "tok" "https://q/api/v1")
        "org" "repo").err = none) ∧
    ((DeleteRobotAccount refLib (NewQuayClient (fixedClient 404 (.ok "gone")) "tok" "https://q/api/v1")
        "org" "bot").response = some ⟨404, .ok "gone"⟩ ∧
      (DeleteRobotAccount refLib (NewQuayClient (fixedClient 404 (.ok "gone")) "tok" "https://q/api/v1")
        "org" "bot").value = false ∧
      (DeleteRobotAccount refLib (NewQuayClient (fixedClient 404 (.ok "gone")) "tok" "https://q/api/v1")
        "org" "bot").err = none) :=
  ⟨⟨rfl, (delete_status_404 refLib _ "org" "repo" ⟨404, .ok "gone"⟩ rfl).1 rfl⟩,
    ⟨rfl, (delete_status_404 refLib _ "org" "bot" ⟨404, .ok "gone"⟩ rfl).2 rfl⟩⟩

/-- C2: when the transport returns a response with status 204, `DeleteRepository` and
`DeleteRobotAccount` both return `(true, nil)` and do not read the response body. -/
theorem delete_status_204 (lib : Lib) (c : QuayClient) (organization name : String)
    (res : Response) (hstatus : res.StatusCode = 204) :
    ((DeleteRepository lib c organization name).response = some res →
      (DeleteRepository lib c organization name).value = true ∧
        (DeleteRepository lib c organization name).err = none ∧
        bodyRead (DeleteRepository lib c organization name).trace = false) ∧
    ((DeleteRobotAccount lib c organization name).response = some res →
      (DeleteRobotAccount lib c organization name).value = true ∧
        (DeleteRobotAccount lib c organization name).err = none ∧
        bodyRead (DeleteRobotAccount lib c organization name).trace = false) := by
  constructor
  · intro h
    obtain ⟨hu, hdo⟩ := DeleteRepository_response h
    rw [DeleteRepository_answered hu hdo]
    exact (deleteAnswered_status lib _ res).1 hstatus
  · intro h
    obtain ⟨hu, hdo⟩ := DeleteRobotAccount_response h
    rw [DeleteRobotAccount_answered hu hdo]
    exact (deleteAnswered_status lib _ res).1 hstatus

/-- C2 at a concrete input: a transport answering 204 with a body that is not JSON. -/
theorem delete_status_204_witness :
    ((DeleteRepository refLib (NewQuayClient (fixedClient 204 (.ok "<html>")) "tok" "https://q/api/v1")
        "org" "repo").response = some ⟨204, .ok "<html>"⟩ ∧
      (DeleteRepository refLib (NewQuayClient (fixedClient 204 (.ok "<html>")) "tok" "https://q/api/v1")
        "org" "repo").value = true ∧
      (DeleteRepository refLib (NewQuayClient (fixedClient 204 (.ok "<html>")) "tok" "https://q/api/v1")
        "org" "repo").err = none ∧
      bodyRead (DeleteRepository refLib
        (NewQuayClient (fixedClient 204 (.ok "<html>")) "tok" "https://q/api/v1")
        "org" "repo").trace = false) ∧
    ((DeleteRobotAccount refLib (NewQuayClient (fixedClient 204 (.ok "<html>")) "tok" "https://q/api/v1")
        "org" "bot").response = some ⟨204, .ok "<html>"⟩ ∧
      (DeleteRobotAccount refLib (NewQuayClient (fixedClient 204 (.ok "<html>")) "tok" "https://q/api/v1")
        "org" "bot").value = true ∧
      (DeleteRobotAccount refLib (NewQuayClient (fixedClient 204 (.ok "<html>")) "tok" "https://q/api/v1")
        "org" "bot").err = none ∧
      bodyRead (DeleteRobotAccount refLib
        (NewQuayClient (fixedClient 204 (.ok "<html>")) "tok" "https://q/api/v1")
        "org" "bot").trace = false) :=
  ⟨⟨rfl, (delete_status_204 refLib _ "org" "repo" ⟨204, .ok "<html>"⟩ rfl).1 rfl⟩,
    ⟨rfl, (delete_status_204 refLib _ "org" "bot" ⟨204, .ok "<html>"⟩ rfl).2 rfl⟩⟩

/-- C4: for a response whose status is neither 204 nor 404 the delete methods return
`(false, e)` with `e` non-nil, whatever the body; so a delete method that got a response
returns a nil error exactly for the statuses 204 and 404, and `true` exactly for 204. -/
theorem delete_status_other (lib : Lib) (c : QuayClient) (organization name : String)
    (res : Response) :
    ((DeleteRepository lib c organization name).response = some res →
      (res.StatusCode ≠ 204 → res.StatusCode ≠ 404 →
        (DeleteRepository lib c organization name).value = false ∧
          (DeleteRepository lib c organization name).err ≠ none) ∧
      ((DeleteRepository lib c organization name).err = none ↔
        res.StatusCode = 204 ∨ res.StatusCode = 404) ∧
      ((DeleteRepository lib c organization name).value = true ↔ res.StatusCode = 204)) ∧
    ((DeleteRobotAccount lib c organization name).response = some res →
      (res.StatusCode ≠ 204 → res.StatusCode ≠ 404 →
        (DeleteRobotAccount lib c organization name).value = false ∧
          (DeleteRobotAccount lib c organization name).err ≠ none) ∧
      ((DeleteRobotAccount lib c organization name).err = none ↔
        res.StatusCode = 204 ∨ res.StatusCode = 404) ∧
      ((DeleteRobotAccount lib c organization name).value = true ↔ res.StatusCode = 204)) := by
  have key : ∀ req : Request,
      (res.StatusCode ≠ 204 → res.StatusCode ≠ 404 →
        (deleteAnswered lib req res).value = false ∧ (deleteAnswered lib req res).err ≠ none) ∧
      ((deleteAnswered lib req res).err = none ↔ res.StatusCode = 204 ∨ res.StatusCode = 404) ∧
      ((deleteAnswered lib req res).value = true ↔ res.StatusCode = 204) := by
    intro req
    obtain ⟨h204, h404, hother⟩ := deleteAnswered_status lib req res
    refine ⟨hother, ?_, ?_⟩
    · constructor
      · intro herr
        by_contra hne
        push_neg at hne
        exact (hother hne.1 hne.2).2 herr
      · rintro (h | h)
        · exact (h204 h).2.1
        · exact (h404 h).2
    · constructor
      · intro hval
        by_contra hne
        by_cases h4 : res.StatusCode = 404
        · rw [(h404 h4).1] at hval; exact Bool.noConfusion hval
        · rw [(hother hne h4).1] at hval; exact Bool.noConfusion hval
      · intro h; exact (h204 h).1
  constructor
  · intro h
    obtain ⟨hu, hdo⟩ := DeleteRepository_response h
    rw [DeleteRepository_answered hu hdo]
    exact key _
  · intro h
    obtain ⟨hu, hdo⟩ := DeleteRobotAccount_response h
    rw [DeleteRobotAccount_answered hu hdo]
    exact key _

/-- C4 at concrete inputs: status 200 with a JSON body without message, and status 202 with a
body that is not JSON, both give `false` and a non-nil error. -/
theorem delete_status_other_witness :
    ((DeleteRepository refLib (refClient 200 (.ok "\x7b\x7d")) "org" "repo").response =
        some ⟨200, .ok "\x7b\x7d"⟩ ∧
      (DeleteRepository refLib (refClient 200 (.ok "\x7b\x7d")) "org" "repo").value = false ∧
      (DeleteRepository refLib (refClient 200 (.ok "\x7b\x7d")) "org" "repo").err ≠ none) ∧
    ((DeleteRobotAccount refLib (refClient 202 (.ok "accepted")) "org" "bot").response =
        some ⟨202, .ok "accepted"⟩ ∧
      (DeleteRobotAccount refLib (refClient 202 (.ok "accepted")) "org" "bot").value = false ∧
      (DeleteRobotAccount refLib (refClient 202 (.ok "accepted")) "org" "bot").err ≠ none) :=
  ⟨⟨rfl, ((delete_status_other refLib (refClient 200 (.ok "\x7b\x7d")) "org" "repo"
      ⟨200, .ok "\x7b\x7d"⟩).1 rfl).1 (by decide) (by decide)⟩,
    ⟨rfl, ((delete_status_other refLib (refClient 202 (.ok "accepted")) "org" "bot"
      ⟨202, .ok "accepted"⟩).2 rfl).1 (by decide) (by decide)⟩⟩

/-- Decoding the JSON object with the one member `error_message` into a fresh `QuayError`. -/
theorem Unmarshal_error_message {lib : Lib} {data m : String}
    (h : lib.jsonParse data = .ok (.obj [("error_message", .str m)])) :
    Unmarshal lib goQuayError data {} = ({ ErrorMessage := m }, none) := by
  have hm : fieldMatches "error_message" "error_message" = true := by decide
  simp [Unmarshal, h, goQuayError, goStruct, decodeMembers, QuayError.member, hm, goString,
    firstError]

/-- C3: when the transport returns status 500 with a body that is the JSON object
`{"error_message": m}`, the delete methods return `(false, e)` with `e` a non-nil error whose
message is exactly `m`. -/
theorem delete_error_message (lib : Lib) (c : QuayClient) (organization name : String)
    (res : Response) (data m : String) (hstatus : res.StatusCode = 500)
    (hbody : res.Body = .ok data)
    (hjson : lib.jsonParse data = .ok (.obj [("error_message", .str m)])) :
    ((DeleteRepository lib c organization name).response = some res →
      (DeleteRepository lib c organization name).value = false ∧
        (DeleteRepository lib c organization name).err = some m) ∧
    ((DeleteRobotAccount lib c organization name).response = some res →
      (DeleteRobotAccount lib c organization name).value = false ∧
        (DeleteRobotAccount lib c organization name).err = some m) := by
  have key : ∀ req : Request, (deleteAnswered lib req res).value = false ∧
      (deleteAnswered lib req res).err = some m := by
    intro req
    have h1 : res.StatusCode ≠ 204 := by rw [hstatus]; decide
    have h2 : res.StatusCode ≠ 404 := by rw [hstatus]; decide
    unfold deleteAnswered deferClose
    simp only [h1, h2, if_false, hbody, Unmarshal_error_message hjson]
    exact ⟨trivial, trivial⟩
  constructor
  · intro h
    obtain ⟨hu, hdo⟩ := DeleteRepository_response h
    rw [DeleteRepository_answered hu hdo]
    exact key _
  · intro h
    obtain ⟨hu, hdo⟩ := DeleteRobotAccount_response h
    rw [DeleteRobotAccount_answered hu hdo]
    exact key _

/-- C3 at the input of the spec: status 500 with the body `{"error_message":"quota exceeded"}`. -/
theorem delete_error_message_witness :
    ((DeleteRepository refLib
        (refClient 500 (.ok "\x7b\"error_message\":\"quota exceeded\"\x7d")) "org" "repo").value
        = false ∧
      (DeleteRepository refLib
        (refClient 500 (.ok "\x7b\"error_message\":\"quota exceeded\"\x7d")) "org" "repo").err
        = some "quota exceeded") ∧
    ((DeleteRobotAccount refLib
        (refClient 500 (.ok "\x7b\"error_message\":\"quota exceeded\"\x7d")) "org" "bot").value
        = false ∧
      (DeleteRobotAccount refLib
        (refClient 500 (.ok "\x7b\"error_message\":\"quota exceeded\"\x7d")) "org" "bot").err
        = some "quota exceeded") :=
  ⟨(delete_error_message refLib _ "org" "repo"
      ⟨500, .ok "\x7b\"error_message\":\"quota exceeded\"\x7d"⟩
      "\x7b\"error_message\":\"quota exceeded\"\x7d" "quota exceeded" rfl rfl rfl).1 rfl,
    (delete_error_message refLib _ "org" "bot"
      ⟨500, .ok "\x7b\"error_message\":\"quota exceeded\"\x7d"⟩
      "\x7b\"error_message\":\"quota exceeded\"\x7d" "quota exceeded" rfl rfl rfl).2 rfl⟩

/-! ## The list methods -/

/-- C5: for a response whose status is not 200, `GetAllRepositories` and `GetAllRobotAccounts`
return `(nil, nil)`, a nil slice with a nil error, whatever the body is. -/
theorem list_status_not_200 {α β : Type} (T : GoType α) (U : GoType β) (lib : Lib)
    (c : QuayClient) (organization : String) (res : Response) (hstatus : res.StatusCode ≠ 200) :
    ((GetAllRepositories T lib c organization).response = some res →
      (GetAllRepositories T lib c organization).value = none ∧
        (GetAllRepositories T lib c organization).err = none) ∧
    ((GetAllRobotAccounts U lib c organization).response = some res →
      (GetAllRobotAccounts U lib c organization).value = none ∧
        (GetAllRobotAccounts U lib c organization).err = none) := by
  constructor
  · intro h
    obtain ⟨hu, hdo⟩ := GetAllRepositories_response h
    rw [GetAllRepositories_answered hu hdo, if_pos hstatus]
    exact ⟨rfl, rfl⟩
  · intro h
    obtain ⟨hu, hdo⟩ := GetAllRobotAccounts_response h
    rw [GetAllRobotAccounts_answered hu hdo, if_pos hstatus]
    exact ⟨rfl, rfl⟩

/-- C5 at concrete inputs: status 500 with an error payload, and status 404. -/
theorem list_status_not_200_witness :
    ((GetAllRepositories goRepository refLib
        (refClient 500 (.ok "\x7b\"error_message\":\"boom\"\x7d")) "org").value = none ∧
      (GetAllRepositories goRepository refLib
        (refClient 500 (.ok "\x7b\"error_message\":\"boom\"\x7d")) "org").err = none) ∧
    ((GetAllRobotAccounts goRobotAccount refLib
        (refClient 500 (.ok "\x7b\"error_message\":\"boom\"\x7d")) "org").value = none ∧
      (GetAllRobotAccounts goRobotAccount refLib
        (refClient 500 (.ok "\x7b\"error_message\":\"boom\"\x7d")) "org").err = none) :=
  ⟨(list_status_not_200 goRepository goRobotAccount refLib _ "org"
      ⟨500, .ok "\x7b\"error_message\":\"boom\"\x7d"⟩ (by decide)).1 rfl,
    (list_status_not_200 goRepository goRobotAccount refLib _ "org"
      ⟨500, .ok "\x7b\"error_message\":\"boom\"\x7d"⟩ (by decide)).2 rfl⟩

/-- C9: for a response with status 200 whose body was read but fails to decode as the
expected JSON object, `GetAllRepositories` and `GetAllRobotAccounts` return a nil error: the
error of `json.Unmarshal` is dropped. -/
theorem list_decode_error_dropped {α β : Type} (T : GoType α) (U : GoType β) (lib : Lib)
    (c : QuayClient) (organization : String) (res : Response) (data : String)
    (hstatus : res.StatusCode = 200) (hbody : res.Body = .ok data) :
    ((GetAllRepositories T lib c organization).response = some res →
      (Unmarshal lib (goStruct {} (GetAllRepositories.Response.member T)) data {}).2 ≠ none →
      (GetAllRepositories T lib c organization).err = none) ∧
    ((GetAllRobotAccounts U lib c organization).response = some res →
      (Unmarshal lib (goStruct {} (GetAllRobotAccounts.Response.member U)) data {}).2 ≠ none →
      (GetAllRobotAccounts U lib c organization).err = none) := by
  have h200 : ¬ res.StatusCode ≠ 200 := by simp [hstatus]
  constructor
  · intro h _
    obtain ⟨hu, hdo⟩ := GetAllRepositories_response h
    rw [GetAllRepositories_answered hu hdo, if_neg h200]
    simp only [hbody, deferClose]
  · intro h _
    obtain ⟨hu, hdo⟩ := GetAllRobotAccounts_response h
    rw [GetAllRobotAccounts_answered hu hdo, if_neg h200]
    simp only [hbody, deferClose]

/-- C9 at concrete inputs: a body that is not JSON for the repositories, and a body whose
`robots` member is a number for the robot accounts; both decodings fail, both errors are nil. -/
theorem list_decode_error_dropped_witness :
    ((Unmarshal refLib (goStruct {} (GetAllRepositories.Response.member goRepository))
        "<html>" {}).2 = some "invalid JSON text" ∧
      (GetAllRepositories goRepository refLib (refClient 200 (.ok "<html>")) "org").err = none) ∧
    ((Unmarshal refLib (goStruct {} (GetAllRobotAccounts.Response.member goRobotAccount))
        "\x7b\"robots\":5\x7d" {}).2 =
          some "json: cannot unmarshal value into Go value of slice type" ∧
      (GetAllRobotAccounts goRobotAccount refLib (refClient 200 (.ok "\x7b\"robots\":5\x7d"))
        "org").err = none) :=
  ⟨⟨rfl, (list_decode_error_dropped goRepository goRobotAccount refLib _ "org"
      ⟨200, .ok "<html>"⟩ "<html>" rfl rfl).1 rfl (by decide)⟩,
    ⟨rfl, (list_decode_error_dropped goRepository goRobotAccount refLib _ "org"
      ⟨200, .ok "\x7b\"robots\":5\x7d"⟩ "\x7b\"robots\":5\x7d" rfl rfl).2 rfl (by decide)⟩⟩

/-- Decoding an array into a fresh slice decodes each entry into a zero value, in order. -/
theorem decodeElems_fresh {α : Type} (T : GoType α) (entries : List JValue) :
    (decodeElems T [] entries).1 = entries.map (fun v => (T.into T.zero v).1) := by
  induction entries with
  | nil => rfl
  | cons v rest ih =>
    simp only [decodeElems, List.headD_nil, List.tail_nil, List.map_cons, ih]

/-- Members that select no field leave the struct alone and record no error. -/
theorem decodeMembers_skip {α : Type} {member : α → String → JValue → α × GoError}
    {sel : String → Bool} (hskip : ∀ d k v, sel k = false → member d k v = (d, none))
    (d : α) (members : List (String × JValue))
    (h : ∀ kv ∈ members, sel kv.1 = false) :
    decodeMembers member d members = (d, none) := by
  induction members generalizing d with
  | nil => rfl
  | cons kv rest ih =>
    obtain ⟨k, v⟩ := kv
    have h1 : member d k v = (d, none) := hskip d k v (h (k, v) (List.mem_cons_self _ _))
    have h2 := ih d (fun kv hkv => h kv (List.mem_cons_of_mem _ hkv))
    simp only [decodeMembers, h1, h2, firstError]

/-- When exactly one member of an object selects the field, the struct decoded from the
object is the one decoded from that member. -/
theorem decodeMembers_single {α : Type} {member : α → String → JValue → α × GoError}
    {sel : String → Bool} (hskip : ∀ d k v, sel k = false → member d k v = (d, none))
    (d : α) (members : List (String × JValue)) (k : String) (v : JValue)
    (h : members.filter (fun kv => sel kv.1) = [(k, v)]) :
    (decodeMembers member d members).1 = (member d k v).1 := by
  induction members generalizing d with
  | nil => simp at h
  | cons kv rest ih =>
    obtain ⟨k1, v1⟩ := kv
    cases hsel : sel k1 with
    | true =>
      rw [List.filter_cons_of_pos (by simpa using hsel)] at h
      obtain ⟨hkv, hrest⟩ := List.cons.inj h
      obtain ⟨rfl, rfl⟩ := Prod.mk.inj hkv
      have hnone : ∀ kv ∈ rest, sel kv.1 = false := by
        intro kv hkv
        have := (List.filter_eq_nil_iff.mp hrest) kv hkv
        simpa using this
      simp only [decodeMembers, decodeMembers_skip hskip _ rest hnone]
    | false =>
      rw [List.filter_cons_of_neg (by simp [hsel])] at h
      simp only [decodeMembers, hskip d k1 v1 hsel, ih d h]

/-- C6: when the transport returns status 200 with a body that is a JSON object whose
`repositories` (resp. `robots`) member is an array of `n` entries, `GetAllRepositories` (resp.
`GetAllRobotAccounts`) returns a non-nil slice of exactly `n` elements, the `i`-th being the
decoding of the `i`-th entry, with a nil error; for the empty array the slice is empty. -/
theorem list_decodes_entries {α β : Type} (T : GoType α) (U : GoType β) (lib : Lib)
    (c : QuayClient) (organization : String) (res : Response) (data : String)
    (members : List (String × JValue)) (entries : List JValue)
    (hstatus : res.StatusCode = 200) (hbody : res.Body = .ok data)
    (hjson : lib.jsonParse data = .ok (.obj members)) :
    ((GetAllRepositories T lib c organization).response = some res →
      members.filter (fun kv => fieldMatches "Repositories" kv.1) =
        [("repositories", .arr entries)] →
      (GetAllRepositories T lib c organization).value =
          some (entries.map (fun v => (T.into T.zero v).1)) ∧
        (GetAllRepositories T lib c organization).err = none ∧
        ((GetAllRepositories T lib c organization).value.map List.length =
          some entries.length)) ∧
    ((GetAllRobotAccounts U lib c organization).response = some res →
      members.filter (fun kv => fieldMatches "Robots" kv.1) = [("robots", .arr entries)] →
      (GetAllRobotAccounts U lib c organization).value =
          some (entries.map (fun v => (U.into U.zero v).1)) ∧
        (GetAllRobotAccounts U lib c organization).err = none ∧
        ((GetAllRobotAccounts U lib c organization).value.map List.length =
          some entries.length)) := by
  have h200 : ¬ res.StatusCode ≠ 200 := by simp [hstatus]
  constructor
  · intro h hmem
    obtain ⟨hu, hdo⟩ := GetAllRepositories_response h
    have hskip : ∀ (d : GetAllRepositories.Response α) k v,
        fieldMatches "Repositories" k = false →
        GetAllRepositories.Response.member T d k v = (d, none) := by
      intro d k v hk
      simp [GetAllRepositories.Response.member, hk]
    have hm : fieldMatches "Repositories" "repositories" = true := by decide
    have hdec : (Unmarshal lib (goStruct {} (GetAllRepositories.Response.member T)) data
        {}).1.Repositories = some (entries.map (fun v => (T.into T.zero v).1)) := by
      simp only [Unmarshal, hjson, goStruct]
      rw [decodeMembers_single hskip _ members _ _ hmem]
      simp [GetAllRepositories.Response.member, hm, goSlice, decodeElems_fresh]
    rw [GetAllRepositories_answered hu hdo, if_neg h200]
    simp only [hbody, deferClose, hdec]
    simp
  · intro h hmem
    obtain ⟨hu, hdo⟩ := GetAllRobotAccounts_response h
    have hskip : ∀ (d : GetAllRobotAccounts.Response β) k v,
        fieldMatches "Robots" k = false →
        GetAllRobotAccounts.Response.member U d k v = (d, none) := by
      intro d k v hk
      simp [GetAllRobotAccounts.Response.member, hk]
    have hm : fieldMatches "Robots" "robots" = true := by decide
    have hdec : (Unmarshal lib (goStruct {} (GetAllRobotAccounts.Response.member U)) data
        {}).1.Robots = some (entries.map (fun v => (U.into U.zero v).1)) := by
      simp only [Unmarshal, hjson, goStruct]
      rw [decodeMembers_single hskip _ members _ _ hmem]
      simp [GetAllRobotAccounts.Response.member, hm, goSlice, decodeElems_fresh]
    rw [GetAllRobotAccounts_answered hu hdo, if_neg h200]
    simp only [hbody, deferClose, hdec]
    simp

/-- C6 at the inputs of the spec: `{"repositories":[{"name":"a"},{"name":"b"}]}` gives the
two repositories `a` and `b` in this order, and `{"robots":[]}` gives an empty non-nil slice,
both with a nil error. -/
theorem list_decodes_entries_witness :
    ((GetAllRepositories goRepository refLib (refClient 200 (.ok "\x7b\"repositories\":[\x7b\"name\":\"a\"\x7d,\x7b\"name\":\"b\"\x7d]\x7d")) "org").value =
        some [⟨"a"⟩, ⟨"b"⟩] ∧
      (GetAllRepositories goRepository refLib (refClient 200 (.ok "\x7b\"repositories\":[\x7b\"name\":\"a\"\x7d,\x7b\"name\":\"b\"\x7d]\x7d")) "org").err = none) ∧
    ((GetAllRobotAccounts goRobotAccount refLib (refClient 200 (.ok "\x7b\"robots\":[]\x7d")) "org").value =
        some [] ∧
      (GetAllRobotAccounts goRobotAccount refLib (refClient 200 (.ok "\x7b\"robots\":[]\x7d")) "org").err = none) :=
  ⟨⟨((list_decodes_entries goRepository goRobotAccount refLib
        (refClient 200 (.ok "\x7b\"repositories\":[\x7b\"name\":\"a\"\x7d,\x7b\"name\":\"b\"\x7d]\x7d")) "org"
        ⟨200, .ok "\x7b\"repositories\":[\x7b\"name\":\"a\"\x7d,\x7b\"name\":\"b\"\x7d]\x7d"⟩ "\x7b\"repositories\":[\x7b\"name\":\"a\"\x7d,\x7b\"name\":\"b\"\x7d]\x7d"
        [("repositories", .arr [.obj [("name", .str "a")], .obj [("name", .str "b")]])]
        [.obj [("name", .str "a")], .obj [("name", .str "b")]] rfl rfl rfl).1 rfl rfl).1,
      ((list_decodes_entries goRepository goRobotAccount refLib
        (refClient 200 (.ok "\x7b\"repositories\":[\x7b\"name\":\"a\"\x7d,\x7b\"name\":\"b\"\x7d]\x7d")) "org"
        ⟨200, .ok "\x7b\"repositories\":[\x7b\"name\":\"a\"\x7d,\x7b\"name\":\"b\"\x7d]\x7d"⟩ "\x7b\"repositories\":[\x7b\"name\":\"a\"\x7d,\x7b\"name\":\"b\"\x7d]\x7d"
        [("repositories", .arr [.obj [("name", .str "a")], .obj [("name", .str "b")]])]
        [.obj [("name", .str "a")], .obj [("name", .str "b")]] rfl rfl rfl).1 rfl rfl).2.1⟩,
    ⟨((list_decodes_entries goRepository goRobotAccount refLib
        (refClient 200 (.ok "\x7b\"robots\":[]\x7d")) "org" ⟨200, .ok "\x7b\"robots\":[]\x7d"⟩ "\x7b\"robots\":[]\x7d"
        [("robots", .arr [])] [] rfl rfl rfl).2 rfl rfl).1,
      ((list_decodes_entries goRepository goRobotAccount refLib
        (refClient 200 (.ok "\x7b\"robots\":[]\x7d")) "org" ⟨200, .ok "\x7b\"robots\":[]\x7d"⟩ "\x7b\"robots\":[]\x7d"
        [("robots", .arr [])] [] rfl rfl rfl).2 rfl rfl).2.1⟩⟩

/-! ## The request -/

/-- The request recorded by the common part of the delete methods. -/
theorem deleteAnswered_sent (lib : Lib) (req : Request) (res : Response) :
    (deleteAnswered lib req res).sent = some req := by
  unfold deleteAnswered Outcome.sent deferClose
  split_ifs
  · rfl
  · rfl
  · split
    · rfl
    · split <;> rfl

/-- The request `DeleteRepository` hands to the transport: the endpoint request, when its URL parses. -/
theorem DeleteRepository_sent (lib : Lib) (c : QuayClient) (organization name : String) :
    (DeleteRepository lib c organization name).sent =
      if lib.urlError (repositoryURL c.url organization name) = none then
        some (endpointRequest "DELETE" (repositoryURL c.url organization name) c.AuthToken)
      else none := by
  cases hu : lib.urlError (repositoryURL c.url organization name) with
  | some e => rw [DeleteRepository_unbuilt hu]; rfl
  | none =>
    rw [if_pos rfl]
    cases hdo : c.httpClient.Do (endpointRequest "DELETE" (repositoryURL c.url organization name) c.AuthToken) with
    | error e => rw [DeleteRepository_failed hu hdo]; rfl
    | ok res =>
      rw [DeleteRepository_answered hu hdo]
      exact deleteAnswered_sent lib _ res

/-- The request `DeleteRobotAccount` hands to the transport: the endpoint request, when its URL parses. -/
theorem DeleteRobotAccount_sent (lib : Lib) (c : QuayClient) (organization name : String) :
    (DeleteRobotAccount lib c organization name).sent =
      if lib.urlError (robotURL c.url organization name) = none then
        some (endpointRequest "DELETE" (robotURL c.url organization name) c.AuthToken)
      else none := by
  cases hu : lib.urlError (robotURL c.url organization name) with
  | some e => rw [DeleteRobotAccount_unbuilt hu]; rfl
  | none =>
    rw [if_pos rfl]
    cases hdo : c.httpClient.Do (endpointRequest "DELETE" (robotURL c.url organization name) c.AuthToken) with
    | error e => rw [DeleteRobotAccount_failed hu hdo]; rfl
    | ok res =>
      rw [DeleteRobotAccount_answered hu hdo]
      exact deleteAnswered_sent lib _ res

/-- The request `GetAllRepositories` hands to the transport: the endpoint request, when its URL parses. -/
theorem GetAllRepositories_sent {α : Type} (T : GoType α) (lib : Lib) (c : QuayClient) (organization : String) :
    (GetAllRepositories T lib c organization).sent =
      if lib.urlError (repositoriesURL c.url organization) = none then
        some (endpointRequest "GET" (repositoriesURL c.url organization) c.AuthToken)
      else none := by
  cases hu : lib.urlError (repositoriesURL c.url organization) with
  | some e => rw [GetAllRepositories_unbuilt hu]; rfl
  | none =>
    rw [if_pos rfl]
    cases hdo : c.httpClient.Do (endpointRequest "GET" (repositoriesURL c.url organization) c.AuthToken) with
    | error e => rw [GetAllRepositories_failed hu hdo]; rfl
    | ok res =>
      rw [GetAllRepositories_answered hu hdo]
      unfold Outcome.sent deferClose
      split_ifs
      · rfl
      · split <;> rfl

/-- The request `GetAllRobotAccounts` hands to the transport: the endpoint request, when its URL parses. -/
theorem GetAllRobotAccounts_sent {α : Type} (T : GoType α) (lib : Lib) (c : QuayClient) (organization : String) :
    (GetAllRobotAccounts T lib c organization).sent =
      if lib.urlError (robotsURL c.url organization) = none then
        some (endpointRequest "GET" (robotsURL c.url organization) c.AuthToken)
      else none := by
  cases hu : lib.urlError (robotsURL c.url organization) with
  | some e => rw [GetAllRobotAccounts_unbuilt hu]; rfl
  | none =>
    rw [if_pos rfl]
    cases hdo : c.httpClient.Do (endpointRequest "GET" (robotsURL c.url organization) c.AuthToken) with
    | error e => rw [GetAllRobotAccounts_failed hu hdo]; rfl
    | ok res =>
      rw [GetAllRobotAccounts_answered hu hdo]
      unfold Outcome.sent deferClose
      split_ifs
      · rfl
      · split <;> rfl

/-- The two headers of an endpoint request, each with its single value. -/
theorem endpointRequest_headers (method url token : String) :
    (endpointRequest method url token).Header.Values "Authorization" = ["Bearer " ++ token] ∧
      (endpointRequest method url token).Header.Values "Content-Type" = ["application/json"] := by
  constructor
  · simp [endpointRequest, Header.Values]
  · simp [endpointRequest, Header.Values]

/-- A request that was sent is the endpoint request. -/
theorem eq_of_sent {o : Option Request} {p : Prop} [Decidable p] {r req : Request}
    (h : o = if p then some r else none) (hreq : o = some req) : req = r := by
  rw [h] at hreq
  split_ifs at hreq
  exact (Option.some.inj hreq).symm

/-- C7: in each of the four methods, the request handed to the transport carries the header
`Authorization` with the single value `"Bearer " ++ c.AuthToken` and the header `Content-Type`
with the single value `application/json`. -/
theorem request_headers {α β : Type} (T : GoType α) (U : GoType β) (lib : Lib) (c : QuayClient)
    (organization name : String) (req : Request) :
    ((DeleteRepository lib c organization name).sent = some req →
      req.Header.Values "Authorization" = ["Bearer " ++ c.AuthToken] ∧
        req.Header.Values "Content-Type" = ["application/json"]) ∧
    ((DeleteRobotAccount lib c organization name).sent = some req →
      req.Header.Values "Authorization" = ["Bearer " ++ c.AuthToken] ∧
        req.Header.Values "Content-Type" = ["application/json"]) ∧
    ((GetAllRepositories T lib c organization).sent = some req →
      req.Header.Values "Authorization" = ["Bearer " ++ c.AuthToken] ∧
        req.Header.Values "Content-Type" = ["application/json"]) ∧
    ((GetAllRobotAccounts U lib c organization).sent = some req →
      req.Header.Values "Authorization" = ["Bearer " ++ c.AuthToken] ∧
        req.Header.Values "Content-Type" = ["application/json"]) := by
  refine ⟨fun h => ?_, fun h => ?_, fun h => ?_, fun h => ?_⟩
  · rw [eq_of_sent (DeleteRepository_sent lib c organization name) h]
    exact endpointRequest_headers _ _ _
  · rw [eq_of_sent (DeleteRobotAccount_sent lib c organization name) h]
    exact endpointRequest_headers _ _ _
  · rw [eq_of_sent (GetAllRepositories_sent T lib c organization) h]
    exact endpointRequest_headers _ _ _
  · rw [eq_of_sent (GetAllRobotAccounts_sent U lib c organization) h]
    exact endpointRequest_headers _ _ _

/-- C10: each method builds its request with the method and the URL string of the endpoint
table, the arguments substituted as they are, and with no body; the request is handed to the
transport exactly when that URL string parses. -/
theorem request_line {α β : Type} (T : GoType α) (U : GoType β) (lib : Lib) (c : QuayClient)
    (organization name : String) :
    (DeleteRepository lib c organization name).sent.map (fun r => (r.Method, r.URL, r.Body)) =
      (if lib.urlError (c.url ++ "/repository/" ++ organization ++ "/" ++ name) = none then
        some ("DELETE", c.url ++ "/repository/" ++ organization ++ "/" ++ name, none)
      else none) ∧
    (DeleteRobotAccount lib c organization name).sent.map (fun r => (r.Method, r.URL, r.Body)) =
      (if lib.urlError (c.url ++ "/organization/" ++ organization ++ "/robots/" ++ name) = none
      then some ("DELETE", c.url ++ "/organization/" ++ organization ++ "/robots/" ++ name, none)
      else none) ∧
    (GetAllRepositories T lib c organization).sent.map (fun r => (r.Method, r.URL, r.Body)) =
      (if lib.urlError (c.url ++ "/repository?last_modified=true&namespace=" ++ organization) =
        none
      then some ("GET", c.url ++ "/repository?last_modified=true&namespace=" ++ organization, none)
      else none) ∧
    (GetAllRobotAccounts U lib c organization).sent.map (fun r => (r.Method, r.URL, r.Body)) =
      (if lib.urlError (c.url ++ "/organization/" ++ organization ++ "/robots") = none then
        some ("GET", c.url ++ "/organization/" ++ organization ++ "/robots", none)
      else none) := by
  refine ⟨?_, ?_, ?_, ?_⟩
  · rw [DeleteRepository_sent]
    unfold repositoryURL endpointRequest
    split_ifs <;> rfl
  · rw [DeleteRobotAccount_sent]
    unfold robotURL endpointRequest
    split_ifs <;> rfl
  · rw [GetAllRepositories_sent]
    unfold repositoriesURL endpointRequest
    split_ifs <;> rfl
  · rw [GetAllRobotAccounts_sent]
    unfold robotsURL endpointRequest
    split_ifs <;> rfl

/-- C7 at a concrete input: the client with the token `tok`; each method sends a request
whose `Authorization` values are `["Bearer tok"]`. -/
theorem request_headers_witness :
    ((DeleteRepository refLib (refClient 200 (.ok "")) "org" "item").sent =
        some (endpointRequest "DELETE" "https://quay.example/api/v1/repository/org/item" "tok") ∧
      (endpointRequest "DELETE" "https://quay.example/api/v1/repository/org/item" "tok").Header.Values "Authorization" = ["Bearer tok"] ∧
      (endpointRequest "DELETE" "https://quay.example/api/v1/repository/org/item" "tok").Header.Values "Content-Type" =
        ["application/json"]) ∧
    ((DeleteRobotAccount refLib (refClient 200 (.ok "")) "org" "item").sent =
        some (endpointRequest "DELETE" "https://quay.example/api/v1/organization/org/robots/item" "tok") ∧
      (endpointRequest "DELETE" "https://quay.example/api/v1/organization/org/robots/item" "tok").Header.Values "Authorization" = ["Bearer tok"] ∧
      (endpointRequest "DELETE" "https://quay.example/api/v1/organization/org/robots/item" "tok").Header.Values "Content-Type" =
        ["application/json"]) ∧
    ((GetAllRepositories goRepository refLib (refClient 200 (.ok "")) "org").sent =
        some (endpointRequest "GET" "https://quay.example/api/v1/repository?last_modified=true&namespace=org" "tok") ∧
      (endpointRequest "GET" "https://quay.example/api/v1/repository?last_modified=true&namespace=org" "tok").Header.Values "Authorization" = ["Bearer tok"] ∧
      (endpointRequest "GET" "https://quay.example/api/v1/repository?last_modified=true&namespace=org" "tok").Header.Values "Content-Type" =
        ["application/json"]) ∧
    ((GetAllRobotAccounts goRobotAccount refLib (refClient 200 (.ok "")) "org").sent =
        some (endpointRequest "GET" "https://quay.example/api/v1/organization/org/robots" "tok") ∧
      (endpointRequest "GET" "https://quay.example/api/v1/organization/org/robots" "tok").Header.Values "Authorization" = ["Bearer tok"] ∧
      (endpointRequest "GET" "https://quay.example/api/v1/organization/org/robots" "tok").Header.Values "Content-Type" =
        ["application/json"]) :=
  ⟨⟨rfl, (request_headers goRepository goRobotAccount refLib (refClient 200 (.ok ""))
      "org" "item" (endpointRequest "DELETE" "https://quay.example/api/v1/repository/org/item" "tok")).1 rfl⟩,
    ⟨rfl, (request_headers goRepository goRobotAccount refLib (refClient 200 (.ok ""))
      "org" "item" (endpointRequest "DELETE" "https://quay.example/api/v1/organization/org/robots/item" "tok")).2.1 rfl⟩,
    ⟨rfl, (request_headers goRepository goRobotAccount refLib (refClient 200 (.ok ""))
      "org" "item" (endpointRequest "GET" "https://quay.example/api/v1/repository?last_modified=true&namespace=org" "tok")).2.2.1 rfl⟩,
    ⟨rfl, (request_headers goRepository goRobotAccount refLib (refClient 200 (.ok ""))
      "org" "item" (endpointRequest "GET" "https://quay.example/api/v1/organization/org/robots" "tok")).2.2.2 rfl⟩⟩

/-! ## Closing the response body -/

/-- The common part of the delete methods closes the response body on every path. -/
theorem deleteAnswered_closed (lib : Lib) (req : Request) (res : Response) :
    bodyClosed (deleteAnswered lib req res).trace = true := by
  unfold deleteAnswered deferClose
  split_ifs
  · rfl
  · rfl
  · split
    · rfl
    · split <;> rfl

/-- The delete methods close the body of every response they got. -/
theorem delete_closes_body (lib : Lib) (c : QuayClient) (organization name : String)
    (res : Response) :
    ((DeleteRepository lib c organization name).response = some res →
      bodyClosed (DeleteRepository lib c organization name).trace = true) ∧
    ((DeleteRobotAccount lib c organization name).response = some res →
      bodyClosed (DeleteRobotAccount lib c organization name).trace = true) := by
  constructor
  · intro h
    obtain ⟨hu, hdo⟩ := DeleteRepository_response h
    rw [DeleteRepository_answered hu hdo]
    exact deleteAnswered_closed lib _ res
  · intro h
    obtain ⟨hu, hdo⟩ := DeleteRobotAccount_response h
    rw [DeleteRobotAccount_answered hu hdo]
    exact deleteAnswered_closed lib _ res

/-- The list methods close the body of a response exactly when its status is 200: the return
for another status comes before the `defer`. -/
theorem list_closes_body_iff {α β : Type} (T : GoType α) (U : GoType β) (lib : Lib)
    (c : QuayClient) (organization : String) (res : Response) :
    ((GetAllRepositories T lib c organization).response = some res →
      (bodyClosed (GetAllRepositories T lib c organization).trace = true ↔
        res.StatusCode = 200)) ∧
    ((GetAllRobotAccounts U lib c organization).response = some res →
      (bodyClosed (GetAllRobotAccounts U lib c organization).trace = true ↔
        res.StatusCode = 200)) := by
  constructor
  · intro h
    obtain ⟨hu, hdo⟩ := GetAllRepositories_response h
    rw [GetAllRepositories_answered hu hdo]
    by_cases hs : res.StatusCode = 200
    · rw [if_neg (by simp [hs])]
      unfold deferClose
      split <;> simp [bodyClosed, hs]
    · rw [if_pos hs]
      simp [bodyClosed, hs]
  · intro h
    obtain ⟨hu, hdo⟩ := GetAllRobotAccounts_response h
    rw [GetAllRobotAccounts_answered hu hdo]
    by_cases hs : res.StatusCode = 200
    · rw [if_neg (by simp [hs])]
      unfold deferClose
      split <;> simp [bodyClosed, hs]
    · rw [if_pos hs]
      simp [bodyClosed, hs]

/-- C8 (fails on the code): with a transport answering 404, `GetAllRepositories` and
`GetAllRobotAccounts` get a response and return without closing its body, while
`DeleteRepository` on the same answer closes it. -/
theorem list_not_200_leaves_body_open :
    ((GetAllRepositories goRepository refLib (refClient 404 (.ok "")) "org").response =
        some ⟨404, .ok ""⟩ ∧
      bodyClosed (GetAllRepositories goRepository refLib (refClient 404 (.ok "")) "org").trace =
        false) ∧
    ((GetAllRobotAccounts goRobotAccount refLib (refClient 404 (.ok "")) "org").response =
        some ⟨404, .ok ""⟩ ∧
      bodyClosed (GetAllRobotAccounts goRobotAccount refLib (refClient 404 (.ok "")) "org").trace =
        false) ∧
    ((DeleteRepository refLib (refClient 404 (.ok "")) "org" "repo").response =
        some ⟨404, .ok ""⟩ ∧
      bodyClosed (DeleteRepository refLib (refClient 404 (.ok "")) "org" "repo").trace = true) :=
  ⟨⟨rfl, rfl⟩, ⟨rfl, rfl⟩, ⟨rfl, rfl⟩⟩

end Quay
